import Mathlib

/-!
Verification of the `fc-man` image-builder pipeline (src/image_builder.rs)
against its natural-language specification.

The Rust source is shallowly embedded: bytes are `Nat` values below 256,
paths are a `RustPath` record of an absolute-flag and component list,
fallible operations return `Except ImageBuilderError _`, and interactions
with the outside world (files, subprocesses, syscalls) are passed in as
explicit oracle values describing the outcome of each external call, so
that every definition mirrors the control flow of the corresponding Rust
function over those outcomes.
-/

set_option maxRecDepth 8192

namespace FcMan

/-- Mirrors `io::ErrorKind` for the few kinds the code can observably
produce: `File::create_new` on an existing file yields `AlreadyExists`;
every other kind is collapsed into `other`. -/
inductive IoErrorKind
  | alreadyExists
  | other
deriving DecidableEq, Repr

/-- Mirrors `enum ImageBuilderError` (image_builder.rs lines 41-51):
`Io(io::Error)`, `Syscall(Errno)`, `StripPrefix(StripPrefixError)` (here
`stripPrefixError`), `MissingGzipHeader`. -/
inductive ImageBuilderError
  | Io (kind : IoErrorKind)
  | Syscall
  | stripPrefixError
  | MissingGzipHeader
deriving DecidableEq, Repr

/-- Mirrors `const GZIP_MAGIC_NUM: [u8; 3] = [0x1F, 0x8B, 0x08]`
(image_builder.rs line 38). -/
def GZIP_MAGIC_NUM : List Nat := [0x1F, 0x8B, 0x08]

/-- Mirrors `slice.windows(pat.len()).position(|w| w == pat)`: the index of
the first `pat.length`-sized window of `l` equal to `pat`; `none` when no
window matches (in particular when `l` is shorter than `pat`). -/
def windowsPos (pat : List Nat) : List Nat → Option Nat
  | [] => none
  | x :: xs =>
    if (x :: xs).take pat.length = pat then some 0
    else Option.map (fun n => n + 1) (windowsPos pat xs)

/-- The loop of `find_vmlinuz_gzip_offset` (image_builder.rs lines 244-259).
Each iteration models one `reader.read(&mut buf)` returning
`min 1024 input.length` bytes (the `BufReader` over the remaining input):
a zero-byte read fails with `MissingGzipHeader`; a chunk containing the
magic number returns the accumulated offset plus the in-chunk position;
otherwise the chunk length is added to the accumulator and the loop
continues. The `fuel` argument only bounds the iteration count so the
recursion is structural; `find_vmlinuz_gzip_offset` supplies fuel
`input.length + 1`, which is never exhausted because every iteration that
recurses consumes at least one input byte. -/
def findGzipLoop : Nat → List Nat → Nat → Except ImageBuilderError Nat
  | 0, _, _ => .error .MissingGzipHeader
  | fuel + 1, input, acc =>
    let chunk := input.take 1024
    if chunk.length = 0 then
      .error .MissingGzipHeader
    else
      match windowsPos GZIP_MAGIC_NUM chunk with
      | some p => .ok (acc + p)
      | none => findGzipLoop fuel (input.drop 1024) (acc + chunk.length)

/-- Mirrors `fn find_vmlinuz_gzip_offset` (image_builder.rs lines 239-260)
on the byte sequence delivered by the reader. -/
def find_vmlinuz_gzip_offset (input : List Nat) : Except ImageBuilderError Nat :=
  findGzipLoop (input.length + 1) input 0

/-- The magic number occurs in `l` at byte offset `p`. -/
def occursAt (l : List Nat) (p : Nat) : Prop :=
  (l.drop p).take 3 = GZIP_MAGIC_NUM

instance (l : List Nat) (p : Nat) : Decidable (occursAt l p) := by
  unfold occursAt; infer_instance

/-- An occurrence at absolute offset `p` lies entirely inside the 1024-byte
read chunk containing `p`. -/
def inChunkAt (p : Nat) : Prop := p % 1024 + 3 ≤ 1024

instance (p : Nat) : Decidable (inChunkAt p) := by
  unfold inChunkAt; infer_instance

instance {ε α : Type} [DecidableEq ε] [DecidableEq α] : DecidableEq (Except ε α) :=
  fun a b =>
    match a, b with
    | .ok x, .ok y =>
      if h : x = y then isTrue (by rw [h])
      else isFalse (fun hc => h (Except.ok.inj hc))
    | .error x, .error y =>
      if h : x = y then isTrue (by rw [h])
      else isFalse (fun hc => h (Except.error.inj hc))
    | .ok _, .error _ => isFalse (fun hc => Except.noConfusion hc)
    | .error _, .ok _ => isFalse (fun hc => Except.noConfusion hc)

/-- Mirrors `Path`/`PathBuf`: an absolute flag (a leading root component)
plus the remaining components. -/
structure RustPath where
  absolute : Bool
  components : List String
deriving DecidableEq

/-- Mirrors the `PathBuf::push` semantics the code relies on (comment at
image_builder.rs line 177): pushing an absolute path replaces the entire
path, pushing a relative one appends its components. -/
def pathPush (base p : RustPath) : RustPath :=
  if p.absolute then p else ⟨base.absolute, base.components ++ p.components⟩

/-- Mirrors `static RESOLV_CONF_PATH = Path::new("/etc/resolv.conf")`
(image_builder.rs line 23). -/
def RESOLV_CONF_PATH : RustPath := ⟨true, ["etc", "resolv.conf"]⟩

/-- Mirrors `path.starts_with("/")`: a path starts with the lone root
component exactly when it is absolute. -/
def startsWithRoot (p : RustPath) : Bool := p.absolute

/-- Mirrors `path.strip_prefix("/")`: drops the root component when the
path is absolute, otherwise fails with `StripPrefixError`. -/
def stripRoot (p : RustPath) : Except Unit RustPath :=
  if p.absolute then .ok ⟨false, p.components⟩ else .error ()

/-- Mirrors the marker types `Unmounted` and `Mounted`
(image_builder.rs lines 64-65). -/
inductive FsState
  | Unmounted
  | Mounted
deriving DecidableEq

/-- Mirrors `struct ImageRootFs<State>` (image_builder.rs lines 71-78); the
`_state: PhantomData<State>` field becomes the type index. -/
structure ImageRootFs (state : FsState) where
  id : String
  working_dir : RustPath
  mount_dir : RustPath
  rootfs_file : RustPath
deriving DecidableEq

/-- Mirrors `std::process::Output` as consulted by the code: exit code and
captured stderr bytes (stdout is never consulted). -/
structure Output where
  status : Int
  stderr : List Nat
deriving DecidableEq

/-- Mirrors `ImageRootFs::<Unmounted>::new` (image_builder.rs lines 82-99):
`rootfs_file` is `working_dir` with `ROOTFS_FILENAME` (= "rootfs.ext4")
pushed. -/
def ImageRootFs.new (id : String) (working_dir mount_dir : RustPath) :
    ImageRootFs .Unmounted :=
  { id := id, working_dir := working_dir, mount_dir := mount_dir,
    rootfs_file := pathPush working_dir ⟨false, ["rootfs.ext4"]⟩ }

/-- Mirrors `File::create_new(p)` against a backing filesystem given as an
existence predicate: fails with `AlreadyExists` when the file is present. -/
def createNew (file_exists : RustPath → Bool) (p : RustPath) :
    Except IoErrorKind Unit :=
  if file_exists p then .error .alreadyExists else .ok ()

/-- Mirrors `allocate_file` (image_builder.rs lines 102-111):
`File::create_new(&self.rootfs_file)?` then `truncate(&self.rootfs_file,
size)?`, whose syscall outcome is the `truncate_result` oracle (its `Errno`
maps to `Syscall`). -/
def ImageRootFs.allocate_file (fs : ImageRootFs .Unmounted)
    (file_exists : RustPath → Bool) (truncate_result : Except Unit Unit)
    (_size : Int) : Except ImageBuilderError Unit :=
  match createNew file_exists fs.rootfs_file with
  | .error e => .error (.Io e)
  | .ok _ =>
    match truncate_result with
    | .error _ => .error .Syscall
    | .ok _ => .ok ()

/-- Mirrors `format` (image_builder.rs lines 114-125): runs `mkfs.ext4` via
`Command::output()?`. Only inability to invoke the tool (the `?`) is an
error; on a completed run stderr is logged when non-empty (no effect here)
and the function returns `Ok(())` without consulting the exit status. -/
def ImageRootFs.format (_fs : ImageRootFs .Unmounted)
    (mkfs_output : Except IoErrorKind Output) : Except ImageBuilderError Unit :=
  match mkfs_output with
  | .error e => .error (.Io e)
  | .ok _out => .ok ()

/-- Mirrors `mount` (image_builder.rs lines 128-153): runs the `mount`
command via `Command::output()?` (stderr only logged), consumes the
`Unmounted` value and rebuilds the same four fields at type `Mounted`. -/
def ImageRootFs.mount (fs : ImageRootFs .Unmounted)
    (mount_output : Except IoErrorKind Output) :
    Except ImageBuilderError (ImageRootFs .Mounted) :=
  match mount_output with
  | .error e => .error (.Io e)
  | .ok _out =>
    .ok { id := fs.id, working_dir := fs.working_dir,
          mount_dir := fs.mount_dir, rootfs_file := fs.rootfs_file }

/-- Mirrors `unmount` (image_builder.rs lines 293-302): runs `umount` via
`Command::output()?` (stderr only logged), consuming the resource. -/
def ImageRootFs.unmount (_fs : ImageRootFs .Mounted)
    (umount_output : Except IoErrorKind Output) : Except ImageBuilderError Unit :=
  match umount_output with
  | .error e => .error (.Io e)
  | .ok _out => .ok ()

/-- Oracle for the external effects of `copy_from_base_fs`: the outcomes of
`File::open(base_fs_path)`, of `archive.unpack(&self.mount_dir)`, and of
`fs::copy(RESOLV_CONF_PATH, dest)` as a function of the destination path. -/
structure CopyBaseFsEnv where
  open_base : Except IoErrorKind Unit
  unpack : Except IoErrorKind Unit
  copy_resolv : RustPath → Except IoErrorKind Unit

/-- Mirrors `copy_from_base_fs` (image_builder.rs lines 162-193), returning
the destination path handed to `fs::copy` (when execution reaches it)
together with the result. The destination starts from a clone of
`self.mount_dir` and pushes `RESOLV_CONF_PATH` stripped of its leading `/`
when it is absolute, the path unchanged otherwise. -/
def ImageRootFs.copy_from_base_fs (fs : ImageRootFs .Mounted)
    (env : CopyBaseFsEnv) : Option RustPath × Except ImageBuilderError Unit :=
  match env.open_base with
  | .error e => (none, .error (.Io e))
  | .ok _ =>
  match env.unpack with
  | .error e => (none, .error (.Io e))
  | .ok _ =>
    let resolv_conf_path := fs.mount_dir
    if startsWithRoot RESOLV_CONF_PATH then
      match stripRoot RESOLV_CONF_PATH with
      | .error _ => (none, .error .stripPrefixError)
      | .ok rel =>
        let dest := pathPush resolv_conf_path rel
        match env.copy_resolv dest with
        | .error e => (some dest, .error (.Io e))
        | .ok _ => (some dest, .ok ())
    else
      let dest := pathPush resolv_conf_path RESOLV_CONF_PATH
      match env.copy_resolv dest with
      | .error e => (some dest, .error (.Io e))
      | .ok _ => (some dest, .ok ())

/-- Outcome of `cmd.status()` for one command in the chrooted child: the
command ran to completion with some exit code, or could not be launched. -/
inductive LaunchResult
  | launched (exit_code : Int)
  | launch_failed (e : IoErrorKind)
deriving DecidableEq

/-- One command of the caller-supplied setup sequence: a label (its position
in the `Vec<Command>`) plus its launch outcome. -/
structure SetupCommand where
  label : Nat
  result : LaunchResult
deriving DecidableEq

/-- The child's loop in `execute_setup` (image_builder.rs lines 204-210):
`for mut cmd in commands { cmd.status()?; }` after the chroot. Returns the
labels of the commands attempted, in execution order, and the loop result:
a launch failure propagates out via `?`; a completed command's exit code is
never consulted. -/
def childLoop : List SetupCommand → List Nat × Except ImageBuilderError Unit
  | [] => ([], .ok ())
  | c :: rest =>
    match c.result with
    | .launch_failed e => ([c.label], .error (.Io e))
    | .launched _ =>
      let step := childLoop rest
      (c.label :: step.1, step.2)

/-- The chrooted child's exit code: `std::process::exit(0)` after the loop
completes; `none` when a launch failure made the child return the error
instead of reaching `exit(0)`. -/
def childExitCode (commands : List SetupCommand) : Option Int :=
  match (childLoop commands).2 with
  | .ok () => some 0
  | .error _ => none

/-- The parent branch of `execute_setup` (image_builder.rs lines 199-203):
`waitpid(child, None)?` — a wait-syscall failure (an `Errno`) is fatal to
the build, otherwise the parent proceeds. -/
def executeSetupParent (wait_result : Except Unit Unit) :
    Except ImageBuilderError Unit :=
  match wait_result with
  | .error _ => .error .Syscall
  | .ok _ => .ok ()

/-- Oracle for the external effects of `extract_and_decompress_vmlinuz`:
the bytes of `mount_dir/boot/vmlinuz-virt` (`.error` when `File::open`
fails), the backing filesystem consulted by `File::create_new`, and the
outcomes of `seek` and of the decompressing `io::copy`. -/
structure ExtractKernelEnv where
  vmlinuz_bytes : Except IoErrorKind (List Nat)
  file_exists : RustPath → Bool
  seek : Except IoErrorKind Unit
  io_copy : Except IoErrorKind Unit

/-- Mirrors `extract_and_decompress_vmlinuz` (image_builder.rs lines
262-290): open the kernel file, locate the gzip offset in its bytes, seek
to it, `File::create_new` the output at `working_dir/vmlinux-virt`
(= `VMLINUX`), stream the decompressed payload into it. -/
def ImageRootFs.extract_and_decompress_vmlinuz (fs : ImageRootFs .Mounted)
    (env : ExtractKernelEnv) : Except ImageBuilderError RustPath :=
  match env.vmlinuz_bytes with
  | .error e => .error (.Io e)
  | .ok bytes =>
  match find_vmlinuz_gzip_offset bytes with
  | .error e => .error e
  | .ok _offset =>
  match env.seek with
  | .error e => .error (.Io e)
  | .ok _ =>
    let out_path := pathPush fs.working_dir ⟨false, ["vmlinux-virt"]⟩
    match createNew env.file_exists out_path with
    | .error e => .error (.Io e)
    | .ok _ =>
    match env.io_copy with
    | .error e => .error (.Io e)
    | .ok _ => .ok out_path

/-- The lifecycle of one `ImageRootFs` value: the two marker states plus
the moved-out state a value is left in after `mount` or `unmount` take
`self` by value. -/
inductive LifecycleState
  | unmounted
  | mounted
  | consumed
deriving DecidableEq

/-- The operations of the spec's mount-lifecycle state machine, named after
the source methods. -/
inductive LifecycleOp
  | allocate_file
  | format
  | mount
  | copy_from_base_fs
  | execute_setup
  | extract_initramfs
  | extract_and_decompress_vmlinuz
  | unmount
deriving DecidableEq

/-- Which operation is callable in which state, transcribed from the impl
blocks: `impl ImageRootFs<Unmounted>` (lines 80-154) holds `allocate_file`
(`&self`), `format` (`&self`) and `mount` (`self`); `impl
ImageRootFs<Mounted>` (lines 156-303) holds `copy_from_base_fs`,
`execute_setup`, `extract_initramfs`, `extract_and_decompress_vmlinuz`
(all `&self`) and `unmount` (`self`). A moved-out value has no callable
operations. -/
def callable : LifecycleState → LifecycleOp → Bool
  | .unmounted, .allocate_file => true
  | .unmounted, .format => true
  | .unmounted, .mount => true
  | .mounted, .copy_from_base_fs => true
  | .mounted, .execute_setup => true
  | .mounted, .extract_initramfs => true
  | .mounted, .extract_and_decompress_vmlinuz => true
  | .mounted, .unmount => true
  | _, _ => false

/-- Each operation's state transition: a `&self` receiver leaves the state
unchanged; `mount(self) -> ImageRootFs<Mounted>` is the only way the
Mounted type is produced (its literal at lines 146-152 is inside the
transition); `unmount(self)` moves the value out for good. `none` when the
operation is not callable in that state. -/
def lifecycleStep : LifecycleState → LifecycleOp → Option LifecycleState
  | .unmounted, .allocate_file => some .unmounted
  | .unmounted, .format => some .unmounted
  | .unmounted, .mount => some .mounted
  | .mounted, .copy_from_base_fs => some .mounted
  | .mounted, .execute_setup => some .mounted
  | .mounted, .extract_initramfs => some .mounted
  | .mounted, .extract_and_decompress_vmlinuz => some .mounted
  | .mounted, .unmount => some .consumed
  | _, _ => none

/-- Whether the operation takes `self` by value (consuming the resource),
transcribed from the receiver of each method: `mount(self)` (line 128) and
`unmount(self)` (line 293); every other operation borrows `&self`. -/
def consumesSelf : LifecycleOp → Bool
  | .mount => true
  | .unmount => true
  | _ => false

/-- Whether the operation's return type contains an `ImageRootFs<Mounted>`
value, transcribed from each method's signature: only `mount` returns
`Result<ImageRootFs<Mounted>, _>`; the others return `Result<(), _>` or
`Result<PathBuf, _>`. -/
def returnsMounted : LifecycleOp → Bool
  | .mount => true
  | _ => false

/-- Mirrors `struct Image` (image_builder.rs lines 54-58). -/
structure Image where
  rootfs_path : RustPath
  initrd_path : RustPath
  kernel_path : RustPath
deriving DecidableEq

/-- The pipeline stages of `build_image_from_base` in source order, used
for the execution trace; `allocate` records the size passed to
`allocate_file`. -/
inductive Stage
  | setup_dirs
  | allocate (size : Int)
  | format
  | mount
  | copy_from_base_fs
  | execute_setup
  | extract_initramfs
  | extract_and_decompress_vmlinuz
  | capture_rootfs
  | unmount
deriving DecidableEq

/-- The per-stage outcomes `build_image_from_base` consults, one oracle per
fallible call in image_builder.rs lines 360-381; `allocate_file` is a
function of the size the builder passes to it. -/
structure StageResults where
  setup_dirs : Except ImageBuilderError Unit
  allocate_file : Int → Except ImageBuilderError Unit
  format : Except ImageBuilderError Unit
  mount : Except ImageBuilderError Unit
  copy_from_base_fs : Except ImageBuilderError Unit
  execute_setup : Except ImageBuilderError Unit
  extract_initramfs : Except ImageBuilderError RustPath
  extract_and_decompress_vmlinuz : Except ImageBuilderError RustPath
  unmount : Except ImageBuilderError Unit

/-- The size literal `256 * 1024 * 1024` the builder passes to
`allocate_file` (image_builder.rs line 363). -/
def ALLOC_SIZE : Int := 256 * 1024 * 1024

/-- The full stage sequence of a successful build, in source order. -/
def pipelineStages : List Stage :=
  [.setup_dirs, .allocate ALLOC_SIZE, .format, .mount,
   .copy_from_base_fs, .execute_setup, .extract_initramfs,
   .extract_and_decompress_vmlinuz, .capture_rootfs, .unmount]

/-- Mirrors `build_image_from_base` (image_builder.rs lines 353-384): the
`?`-chained stage sequence with the trace of executed stages.
`rootfs_file` is the `working_dir/rootfs.ext4` path of the constructed
`ImageRootFs`, which `mounted_rootfs.rootfs_file()` returns at line 373 and
which becomes the artifact's `rootfs_path`. The `Image` is assembled before
`unmount()` runs, but is returned only when `unmount` also succeeds. -/
def build_image_from_base (env : StageResults) (rootfs_file : RustPath) :
    List Stage × Except ImageBuilderError Image :=
  match env.setup_dirs with
  | .error e => (pipelineStages.take 1, .error e)
  | .ok _ =>
  match env.allocate_file ALLOC_SIZE with
  | .error e => (pipelineStages.take 2, .error e)
  | .ok _ =>
  match env.format with
  | .error e => (pipelineStages.take 3, .error e)
  | .ok _ =>
  match env.mount with
  | .error e => (pipelineStages.take 4, .error e)
  | .ok _ =>
  match env.copy_from_base_fs with
  | .error e => (pipelineStages.take 5, .error e)
  | .ok _ =>
  match env.execute_setup with
  | .error e => (pipelineStages.take 6, .error e)
  | .ok _ =>
  match env.extract_initramfs with
  | .error e => (pipelineStages.take 7, .error e)
  | .ok initram_fs_path =>
  match env.extract_and_decompress_vmlinuz with
  | .error e => (pipelineStages.take 8, .error e)
  | .ok vmlinux_path =>
    let image : Image :=
      { rootfs_path := rootfs_file, initrd_path := initram_fs_path,
        kernel_path := vmlinux_path }
    match env.unmount with
    | .error e => (pipelineStages, .error e)
    | .ok _ => (pipelineStages, .ok image)

/-- Every stage oracle reports success. -/
def allStagesOk (env : StageResults) : Prop :=
  env.setup_dirs = .ok () ∧ env.allocate_file ALLOC_SIZE = .ok ()
    ∧ env.format = .ok () ∧ env.mount = .ok ()
    ∧ env.copy_from_base_fs = .ok () ∧ env.execute_setup = .ok ()
    ∧ (∃ p, env.extract_initramfs = .ok p)
    ∧ (∃ p, env.extract_and_decompress_vmlinuz = .ok p)
    ∧ env.unmount = .ok ()

/-- A concrete Unmounted resource used to instantiate theorems. -/
def sampleUnmounted : ImageRootFs .Unmounted :=
  ImageRootFs.new "img-1" ⟨true, ["var", "w"]⟩ ⟨true, ["var", "mnt"]⟩

/-- The Mounted value a successful `mount` of `sampleUnmounted` yields. -/
def sampleMounted : ImageRootFs .Mounted :=
  { id := "img-1", working_dir := ⟨true, ["var", "w"]⟩,
    mount_dir := ⟨true, ["var", "mnt"]⟩,
    rootfs_file := pathPush ⟨true, ["var", "w"]⟩ ⟨false, ["rootfs.ext4"]⟩ }

theorem occursAt_nil (q : Nat) : ¬ occursAt [] q := by
  simp [occursAt, GZIP_MAGIC_NUM]

theorem occursAt_cons_succ (x : Nat) (xs : List Nat) (q : Nat) :
    occursAt (x :: xs) (q + 1) ↔ occursAt xs q := by
  simp [occursAt]

theorem occursAt_cons_zero (x : Nat) (xs : List Nat) :
    occursAt (x :: xs) 0 ↔ (x :: xs).take GZIP_MAGIC_NUM.length = GZIP_MAGIC_NUM := by
  simp [occursAt, GZIP_MAGIC_NUM]

theorem windowsPos_cons (pat : List Nat) (x : Nat) (xs : List Nat) :
    windowsPos pat (x :: xs) =
      if (x :: xs).take pat.length = pat then some 0
      else Option.map (fun n => n + 1) (windowsPos pat xs) := rfl

/-- The chunk scan reports no match exactly when the magic number occurs
nowhere in the chunk. -/
theorem windowsPos_none_iff (l : List Nat) :
    windowsPos GZIP_MAGIC_NUM l = none ↔ ∀ q, ¬ occursAt l q := by
  induction l with
  | nil =>
    simp only [windowsPos]
    exact iff_of_true trivial occursAt_nil
  | cons x xs ih =>
    rw [windowsPos_cons]
    by_cases h : (x :: xs).take GZIP_MAGIC_NUM.length = GZIP_MAGIC_NUM
    · rw [if_pos h]
      constructor
      · intro hw; exact absurd hw (by simp)
      · intro hall; exact absurd ((occursAt_cons_zero x xs).2 h) (hall 0)
    · rw [if_neg h, Option.map_eq_none', ih]
      constructor
      · intro hxs q
        cases q with
        | zero => exact fun h0 => h ((occursAt_cons_zero x xs).1 h0)
        | succ q => exact fun hq => hxs q ((occursAt_cons_succ x xs q).1 hq)
      · intro hall q hq
        exact hall (q + 1) ((occursAt_cons_succ x xs q).2 hq)

/-- The chunk scan reports position `p` exactly when the magic number
occurs at `p` in the chunk and nowhere earlier. -/
theorem windowsPos_some_iff (l : List Nat) (p : Nat) :
    windowsPos GZIP_MAGIC_NUM l = some p ↔
      occursAt l p ∧ ∀ q, q < p → ¬ occursAt l q := by
  induction l generalizing p with
  | nil =>
    simp only [windowsPos]
    exact iff_of_false (by simp) (fun hc => occursAt_nil p hc.1)
  | cons x xs ih =>
    rw [windowsPos_cons]
    by_cases h : (x :: xs).take GZIP_MAGIC_NUM.length = GZIP_MAGIC_NUM
    · rw [if_pos h]
      constructor
      · intro hw
        obtain rfl : (0 : Nat) = p := by simpa using hw
        exact ⟨(occursAt_cons_zero x xs).2 h, fun q hq => absurd hq (Nat.not_lt_zero q)⟩
      · rintro ⟨hp, hmin⟩
        cases p with
        | zero => rfl
        | succ p => exact absurd ((occursAt_cons_zero x xs).2 h) (hmin 0 (Nat.succ_pos p))
    · rw [if_neg h]
      cases p with
      | zero =>
        constructor
        · intro hw
          rcases Option.map_eq_some'.1 hw with ⟨n, _, hn⟩
          exact absurd hn (by omega)
        · rintro ⟨hp, _⟩
          exact absurd ((occursAt_cons_zero x xs).1 hp) h
      | succ p =>
        constructor
        · intro hw
          rcases Option.map_eq_some'.1 hw with ⟨n, hn, hn1⟩
          have hnp : n = p := by omega
          rw [hnp] at hn
          rcases (ih p).1 hn with ⟨hp, hmin⟩
          refine ⟨(occursAt_cons_succ x xs p).2 hp, ?_⟩
          intro q hq
          cases q with
          | zero => exact fun h0 => h ((occursAt_cons_zero x xs).1 h0)
          | succ q => exact fun hq' => hmin q (by omega) ((occursAt_cons_succ x xs q).1 hq')
        · rintro ⟨hp, hmin⟩
          have hxs : windowsPos GZIP_MAGIC_NUM xs = some p :=
            (ih p).2 ⟨(occursAt_cons_succ x xs p).1 hp,
              fun q hq hq' => hmin (q + 1) (by omega) ((occursAt_cons_succ x xs q).2 hq')⟩
          simp [hxs]

/-- The magic number occupies bytes `q`, `q+1`, `q+2`, so an occurrence
needs three bytes of input past `q`. -/
theorem occursAt_length_le (l : List Nat) (q : Nat) (h : occursAt l q) :
    q + 3 ≤ l.length := by
  unfold occursAt at h
  have h3 : ((l.drop q).take 3).length = 3 := by rw [h]; rfl
  simp only [List.length_take, List.length_drop] at h3
  omega

/-- An occurrence inside the first 1024-byte chunk is exactly an occurrence
of the whole input that ends by byte 1024. -/
theorem occursAt_take_iff (l : List Nat) (q : Nat) :
    occursAt (l.take 1024) q ↔ occursAt l q ∧ q + 3 ≤ 1024 := by
  constructor
  · intro h
    have hlen := occursAt_length_le _ _ h
    simp only [List.length_take] at hlen
    have hq : q + 3 ≤ 1024 := by omega
    refine ⟨?_, hq⟩
    unfold occursAt at h ⊢
    rw [List.drop_take, List.take_take] at h
    have : min 3 (1024 - q) = 3 := by omega
    rwa [this] at h
  · rintro ⟨h, hq⟩
    unfold occursAt at h ⊢
    rw [List.drop_take, List.take_take]
    have : min 3 (1024 - q) = 3 := by omega
    rwa [this]

theorem occursAt_drop (l : List Nat) (n q : Nat) :
    occursAt (l.drop n) q ↔ occursAt l (n + q) := by
  unfold occursAt
  rw [List.drop_drop]

theorem findGzipLoop_succ (fuel : Nat) (l : List Nat) (acc : Nat) :
    findGzipLoop (fuel + 1) l acc =
      if (l.take 1024).length = 0 then .error .MissingGzipHeader
      else
        match windowsPos GZIP_MAGIC_NUM (l.take 1024) with
        | some p => .ok (acc + p)
        | none => findGzipLoop fuel (l.drop 1024) (acc + (l.take 1024).length) := rfl

/-- Soundness of the chunked scan: when the magic number occurs at offset
`p`, lies inside its read chunk, and no earlier occurrence lies inside a
chunk, the loop returns `acc + p`. -/
theorem findGzipLoop_ok : ∀ (fuel : Nat) (l : List Nat) (acc p : Nat),
    l.length < fuel →
    occursAt l p → inChunkAt p →
    (∀ q, q < p → occursAt l q → ¬ inChunkAt q) →
    findGzipLoop fuel l acc = .ok (acc + p) := by
  intro fuel
  induction fuel with
  | zero => intro l acc p hf _ _ _; omega
  | succ fuel ih =>
    intro l acc p hf hp hin hmin
    have hlen := occursAt_length_le l p hp
    rw [findGzipLoop_succ]
    have hne : (l.take 1024).length ≠ 0 := by
      simp only [List.length_take]
      omega
    rw [if_neg hne]
    by_cases hsmall : p < 1024
    · have hpmod : p % 1024 = p := Nat.mod_eq_of_lt hsmall
      have hw : windowsPos GZIP_MAGIC_NUM (l.take 1024) = some p := by
        rw [windowsPos_some_iff]
        refine ⟨(occursAt_take_iff l p).2 ⟨hp, ?_⟩, ?_⟩
        · unfold inChunkAt at hin; omega
        · intro q hq hocc
          rcases (occursAt_take_iff l q).1 hocc with ⟨hoccl, hq3⟩
          refine hmin q hq hoccl ?_
          unfold inChunkAt
          omega
      rw [hw]
    · have hw : windowsPos GZIP_MAGIC_NUM (l.take 1024) = none := by
        rw [windowsPos_none_iff]
        intro q hocc
        rcases (occursAt_take_iff l q).1 hocc with ⟨hoccl, hq3⟩
        refine hmin q (by omega) hoccl ?_
        unfold inChunkAt
        omega
      rw [hw]
      have hchunklen : (l.take 1024).length = 1024 := by
        simp only [List.length_take]
        omega
      rw [hchunklen]
      have hrec := ih (l.drop 1024) (acc + 1024) (p - 1024)
        (by simp only [List.length_drop]; omega)
        (by rw [occursAt_drop]; have : 1024 + (p - 1024) = p := by omega
            rwa [this])
        (by unfold inChunkAt at hin ⊢; omega)
        (by intro q hq hocc
            rw [occursAt_drop] at hocc
            have := hmin (1024 + q) (by omega) hocc
            unfold inChunkAt at this ⊢
            omega)
      rw [hrec]
      have : acc + 1024 + (p - 1024) = acc + p := by omega
      rw [this]

/-- Completeness of the failure case: when no occurrence of the magic
number lies inside a read chunk, the loop reaches end of input and fails
with `MissingGzipHeader`. -/
theorem findGzipLoop_none : ∀ (fuel : Nat) (l : List Nat) (acc : Nat),
    l.length < fuel →
    (∀ q, occursAt l q → ¬ inChunkAt q) →
    findGzipLoop fuel l acc = .error .MissingGzipHeader := by
  intro fuel
  induction fuel with
  | zero => intro l acc hf _; omega
  | succ fuel ih =>
    intro l acc hf hno
    rw [findGzipLoop_succ]
    by_cases hnil : l.length = 0
    · rw [if_pos (by simp only [List.length_take]; omega)]
    · rw [if_neg (by simp only [List.length_take]; omega)]
      have hw : windowsPos GZIP_MAGIC_NUM (l.take 1024) = none := by
        rw [windowsPos_none_iff]
        intro q hocc
        rcases (occursAt_take_iff l q).1 hocc with ⟨hoccl, hq3⟩
        have hq : q < 1024 := by omega
        refine hno q hoccl ?_
        unfold inChunkAt
        omega
      rw [hw]
      exact ih (l.drop 1024) (acc + (l.take 1024).length)
        (by simp only [List.length_drop]; omega)
        (by intro q hocc
            rw [occursAt_drop] at hocc
            have := hno (1024 + q) hocc
            unfold inChunkAt at this ⊢
            omega)

/-- An occurrence starts with the first magic byte `0x1F`. -/
theorem occursAt_getElem (l : List Nat) (q : Nat) (h : occursAt l q) :
    l[q]? = some 0x1F := by
  unfold occursAt at h
  have h0 : ((l.drop q).take 3)[0]? = some 0x1F := by
    rw [h]; rfl
  rw [List.getElem?_take_of_lt (by omega)] at h0
  rw [← List.head?_drop, List.head?_eq_getElem?]
  exact h0

/-- A filler prefix whose byte differs from `0x1F` contains no occurrence
of the magic number starting inside it. -/
theorem no_occursAt_replicate (n b : Nat) (rest : List Nat) (hb : b ≠ 0x1F)
    (q : Nat) (hq : q < n) : ¬ occursAt (List.replicate n b ++ rest) q := by
  intro h
  have hget := occursAt_getElem _ _ h
  rw [List.getElem?_append_left (by simpa using hq)] at hget
  rw [List.getElem?_replicate, if_pos hq] at hget
  exact hb (Option.some.inj hget)

/-- The magic number occurs right after an `n`-byte prefix. -/
theorem occursAt_replicate_append (n b : Nat) (rest : List Nat) :
    occursAt (List.replicate n b ++ (GZIP_MAGIC_NUM ++ rest)) n := by
  unfold occursAt
  rw [List.drop_left' (List.length_replicate n b)]
  exact List.take_left' rfl

/-- C1: state-machine legality. In the Unmounted state exactly
`allocate_file`, `format` and `mount` are callable; in the Mounted state
exactly `copy_from_base_fs`, `execute_setup`, `extract_initramfs`,
`extract_and_decompress_vmlinuz` and `unmount` are callable; `mount` is the
sole transition producing a Mounted value and consumes the Unmounted one;
`unmount` consumes the Mounted value, after which no operation is
callable. -/
theorem C1_state_machine_legality :
    (∀ op, callable .unmounted op = true ↔
      (op = .allocate_file ∨ op = .format ∨ op = .mount))
    ∧ (∀ op, callable .mounted op = true ↔
      (op = .copy_from_base_fs ∨ op = .execute_setup ∨ op = .extract_initramfs
        ∨ op = .extract_and_decompress_vmlinuz ∨ op = .unmount))
    ∧ (∀ op, returnsMounted op = true ↔ op = .mount)
    ∧ consumesSelf .mount = true
    ∧ lifecycleStep .unmounted .mount = some .mounted
    ∧ consumesSelf .unmount = true
    ∧ lifecycleStep .mounted .unmount = some .consumed
    ∧ (∀ op, callable .consumed op = false)
    ∧ (∀ op, lifecycleStep .consumed op = none) := by
  refine ⟨fun op => ?_, fun op => ?_, fun op => ?_, rfl, rfl, rfl, rfl,
    fun op => ?_, fun op => ?_⟩
  · cases op <;> decide
  · cases op <;> decide
  · cases op <;> decide
  · cases op <;> decide
  · cases op <;> decide

/-- C2: whenever the gzip magic number occurs entirely inside one
1024-byte read chunk and no earlier occurrence lies inside a chunk,
`find_vmlinuz_gzip_offset` returns that occurrence's absolute byte offset
(bytes of all fully scanned previous chunks plus the in-chunk position);
in particular it returns 0 on exactly the signature, 5 after a 5-byte
prefix, 5000 after a 5000-byte 0xFF prefix and 100000 after a 100000-byte
0x01 prefix. -/
theorem C2_find_offset_in_chunk :
    (∀ (input : List Nat) (p : Nat),
        occursAt input p → inChunkAt p →
        (∀ q, q < p → occursAt input q → ¬ inChunkAt q) →
        find_vmlinuz_gzip_offset input = .ok p)
    ∧ find_vmlinuz_gzip_offset GZIP_MAGIC_NUM = .ok 0
    ∧ find_vmlinuz_gzip_offset
        ([0x00, 0x01, 0xFF, 0x1F, 0x00] ++ (GZIP_MAGIC_NUM ++ List.replicate 10 0xFF)) = .ok 5
    ∧ find_vmlinuz_gzip_offset
        (List.replicate 5000 0xFF ++ (GZIP_MAGIC_NUM ++ List.replicate 2048 0x00)) = .ok 5000
    ∧ find_vmlinuz_gzip_offset
        (List.replicate 100000 0x01 ++ (GZIP_MAGIC_NUM ++ List.replicate 10 0x0F)) = .ok 100000 := by
  have hgen : ∀ (input : List Nat) (p : Nat),
      occursAt input p → inChunkAt p →
      (∀ q, q < p → occursAt input q → ¬ inChunkAt q) →
      find_vmlinuz_gzip_offset input = .ok p := by
    intro input p hp hin hmin
    unfold find_vmlinuz_gzip_offset
    have h := findGzipLoop_ok (input.length + 1) input 0 p (Nat.lt_succ_self _) hp hin hmin
    simpa using h
  refine ⟨hgen, by decide, by decide, ?_, ?_⟩
  · exact hgen _ 5000 (occursAt_replicate_append 5000 0xFF _) (by decide)
      (fun q hq hocc => absurd hocc (no_occursAt_replicate 5000 0xFF _ (by decide) q hq))
  · exact hgen _ 100000 (occursAt_replicate_append 100000 0x01 _) (by decide)
      (fun q hq hocc => absurd hocc (no_occursAt_replicate 100000 0x01 _ (by decide) q hq))

/-- C3: a signature straddling the 1024-byte chunk boundary (1023 filler
bytes followed by the 3-byte signature) is present in the input, does not
lie inside a single read chunk, and the scan misses it, failing with
`MissingGzipHeader`. -/
theorem C3_straddling_signature_missed :
    occursAt (List.replicate 1023 0x00 ++ GZIP_MAGIC_NUM) 1023
    ∧ ¬ inChunkAt 1023
    ∧ find_vmlinuz_gzip_offset (List.replicate 1023 0x00 ++ GZIP_MAGIC_NUM) =
        .error .MissingGzipHeader := by
  refine ⟨?_, by decide, ?_⟩
  · have h := occursAt_replicate_append 1023 0x00 []
    rwa [List.append_nil] at h
  · unfold find_vmlinuz_gzip_offset
    refine findGzipLoop_none _ _ 0 (Nat.lt_succ_self _) ?_
    intro q hocc
    have hlen := occursAt_length_le _ _ hocc
    rw [List.length_append, List.length_replicate] at hlen
    simp only [GZIP_MAGIC_NUM, List.length_cons, List.length_nil] at hlen
    by_cases hq : q < 1023
    · exact absurd hocc (no_occursAt_replicate 1023 0x00 GZIP_MAGIC_NUM (by decide) q hq)
    · have hq3 : q = 1023 := by omega
      subst hq3
      decide

/-- C4: when no occurrence of the exact 3-byte signature lies inside any
single read chunk — in particular for the empty input, for 1024 bytes of
0xFF, and for a near-match with wrong third byte — the scan reaches end of
input and fails with `MissingGzipHeader`. -/
theorem C4_no_in_chunk_occurrence_fails :
    (∀ (input : List Nat),
        (∀ q, occursAt input q → ¬ inChunkAt q) →
        find_vmlinuz_gzip_offset input = .error .MissingGzipHeader)
    ∧ find_vmlinuz_gzip_offset [] = .error .MissingGzipHeader
    ∧ find_vmlinuz_gzip_offset (List.replicate 1024 0xFF) = .error .MissingGzipHeader
    ∧ find_vmlinuz_gzip_offset [0x00, 0x01, 0x1F, 0x8B, 0x07, 0x01] =
        .error .MissingGzipHeader := by
  have hgen : ∀ (input : List Nat),
      (∀ q, occursAt input q → ¬ inChunkAt q) →
      find_vmlinuz_gzip_offset input = .error .MissingGzipHeader := by
    intro input h
    unfold find_vmlinuz_gzip_offset
    exact findGzipLoop_none _ _ 0 (Nat.lt_succ_self _) h
  refine ⟨hgen, by decide, ?_, by decide⟩
  refine hgen _ ?_
  intro q hocc
  exfalso
  have hlen := occursAt_length_le _ _ hocc
  rw [List.length_replicate] at hlen
  have hno := no_occursAt_replicate 1024 0xFF [] (by decide) q (by omega)
  rw [List.append_nil] at hno
  exact hno hocc

/-- C5 counterexample: the formatting tool completes with exit status 1 —
an exit status that signals failure — yet `format()` succeeds, because the
exit status is never consulted; so "fails exactly when the exit status
signals failure" is false as stated. -/
theorem C5_format_ignores_exit_status :
    sampleUnmounted.format (.ok { status := 1, stderr := [] }) = .ok ()
    ∧ (1 : Int) ≠ 0 :=
  ⟨rfl, by decide⟩

/-- C5 (amended): `format()` fails exactly when the formatting tool cannot
be invoked at all; a completed run — whatever its exit status and stderr,
the latter only logged — always succeeds, and a failed invocation's error
is surfaced as `Io`. -/
theorem C5_format_failure_condition :
    (∀ (fs : ImageRootFs .Unmounted) (st : Int) (err : List Nat),
        fs.format (.ok { status := st, stderr := err }) = .ok ())
    ∧ (∀ (fs : ImageRootFs .Unmounted) (e : IoErrorKind),
        fs.format (.error e) = .error (.Io e)) :=
  ⟨fun _ _ _ => rfl, fun _ _ => rfl⟩

/-- C6: the chrooted child attempts every supplied command strictly in the
given order; a completed command's non-zero exit status does not
short-circuit the loop, which errors exactly when some command cannot be
launched; when all commands launch, the child reaches `exit(0)`; the
parent's `waitpid` failure is fatal (`Syscall`). The two concrete runs
show a non-zero middle exit status not stopping the sequence, and a launch
failure stopping it. -/
theorem C6_execute_setup_runs_all_in_order :
    (∀ (cmds : List SetupCommand),
        (∀ c ∈ cmds, ∃ code, c.result = .launched code) →
        childLoop cmds = (cmds.map SetupCommand.label, .ok ())
          ∧ childExitCode cmds = some 0)
    ∧ (∀ (cmds : List SetupCommand),
        (∃ e, (childLoop cmds).2 = .error e) ↔
          (∃ c ∈ cmds, ∃ k, c.result = .launch_failed k))
    ∧ executeSetupParent (.error ()) = .error .Syscall
    ∧ executeSetupParent (.ok ()) = .ok ()
    ∧ childLoop [⟨0, .launched 0⟩, ⟨1, .launched 3⟩, ⟨2, .launched 0⟩] =
        ([0, 1, 2], .ok ())
    ∧ childLoop [⟨0, .launched 0⟩, ⟨1, .launch_failed .other⟩, ⟨2, .launched 0⟩] =
        ([0, 1], .error (.Io .other)) := by
  have hloop : ∀ (cmds : List SetupCommand),
      (∀ c ∈ cmds, ∃ code, c.result = .launched code) →
      childLoop cmds = (cmds.map SetupCommand.label, .ok ()) := by
    intro cmds h
    induction cmds with
    | nil => rfl
    | cons c rest ih =>
      obtain ⟨code, hc⟩ := h c (List.mem_cons_self c rest)
      have hrest := ih (fun d hd => h d (List.mem_cons_of_mem c hd))
      simp [childLoop, hc, hrest]
  refine ⟨?_, ?_, rfl, rfl, rfl, rfl⟩
  · intro cmds h
    refine ⟨hloop cmds h, ?_⟩
    unfold childExitCode
    rw [hloop cmds h]
  · intro cmds
    induction cmds with
    | nil => simp [childLoop]
    | cons c rest ih =>
      cases hc : c.result with
      | launched code => simp [childLoop, hc, ih]
      | launch_failed k => simp [childLoop, hc]

/-- C8: a successful `mount` consumes the Unmounted value and returns a
Mounted value carrying exactly the same identifier and paths: `id`,
`working_dir`, `mount_dir` and `rootfs_file` are unchanged. -/
theorem C8_mount_preserves_fields (fs : ImageRootFs .Unmounted)
    (out : Except IoErrorKind Output) (m : ImageRootFs .Mounted)
    (h : fs.mount out = .ok m) :
    m.id = fs.id ∧ m.working_dir = fs.working_dir
      ∧ m.mount_dir = fs.mount_dir ∧ m.rootfs_file = fs.rootfs_file := by
  cases out with
  | error e => exact absurd h (by simp [ImageRootFs.mount])
  | ok o =>
    have hm : m = ⟨fs.id, fs.working_dir, fs.mount_dir, fs.rootfs_file⟩ :=
      (Except.ok.inj h).symm
    subst hm
    exact ⟨rfl, rfl, rfl, rfl⟩

/-- C8 witness: mounting the concrete sample resource after a completed
mount command preserves all four fields. -/
theorem C8_mount_preserves_fields_witness :
    sampleMounted.id = sampleUnmounted.id
    ∧ sampleMounted.working_dir = sampleUnmounted.working_dir
    ∧ sampleMounted.mount_dir = sampleUnmounted.mount_dir
    ∧ sampleMounted.rootfs_file = sampleUnmounted.rootfs_file :=
  C8_mount_preserves_fields sampleUnmounted (.ok { status := 0, stderr := [] })
    sampleMounted rfl

/-- C9: the `StripPrefix` error branch of `copy_from_base_fs` is
unreachable: the configured resolver path is the fixed absolute
`/etc/resolv.conf`, and `strip_prefix("/")` runs only under the
`starts_with("/")` guard, so whenever the copy is reached its destination
is `mount_dir` extended with `etc/resolv.conf`, and the result is never
the strip-prefix error. -/
theorem C9_strip_prefix_branch_unreachable (fs : ImageRootFs .Mounted)
    (env : CopyBaseFsEnv) :
    (fs.copy_from_base_fs env).2 ≠ .error .stripPrefixError
    ∧ (∀ d, (fs.copy_from_base_fs env).1 = some d →
        d = pathPush fs.mount_dir ⟨false, ["etc", "resolv.conf"]⟩) := by
  unfold ImageRootFs.copy_from_base_fs
  cases ho : env.open_base with
  | error e => exact ⟨by simp, by simp⟩
  | ok vo =>
  cases hu : env.unpack with
  | error e => exact ⟨by simp, by simp⟩
  | ok vu =>
  simp only [startsWithRoot, RESOLV_CONF_PATH, stripRoot, if_pos]
  cases hc : env.copy_resolv (pathPush fs.mount_dir ⟨false, ["etc", "resolv.conf"]⟩) with
  | error e =>
    refine ⟨by simp, ?_⟩
    intro d hd
    exact (Option.some.inj hd).symm
  | ok vc =>
    refine ⟨by simp, ?_⟩
    intro d hd
    exact (Option.some.inj hd).symm

/-- C10: create-new semantics. When `working_dir/vmlinux-virt` already
exists, `extract_and_decompress_vmlinuz` fails with `Io AlreadyExists`
even though a valid signature was found and the seek succeeded; likewise
`allocate_file` fails with `Io AlreadyExists` when `rootfs_file` already
exists. The last two conjuncts evaluate both at concrete inputs whose
destination file exists. -/
theorem C10_create_new_semantics :
    (∀ (fs : ImageRootFs .Mounted) (env : ExtractKernelEnv)
        (bytes : List Nat) (off : Nat),
        env.vmlinuz_bytes = .ok bytes →
        find_vmlinuz_gzip_offset bytes = .ok off →
        env.seek = .ok () →
        env.file_exists (pathPush fs.working_dir ⟨false, ["vmlinux-virt"]⟩) = true →
        fs.extract_and_decompress_vmlinuz env = .error (.Io .alreadyExists))
    ∧ (∀ (fs : ImageRootFs .Unmounted) (file_present : RustPath → Bool)
        (truncate_result : Except Unit Unit) (size : Int),
        file_present fs.rootfs_file = true →
        fs.allocate_file file_present truncate_result size =
          .error (.Io .alreadyExists))
    ∧ sampleMounted.extract_and_decompress_vmlinuz
        { vmlinuz_bytes := .ok GZIP_MAGIC_NUM, file_exists := fun _ => true,
          seek := .ok (), io_copy := .ok () } = .error (.Io .alreadyExists)
    ∧ sampleUnmounted.allocate_file (fun _ => true) (.ok ()) 268435456 =
        .error (.Io .alreadyExists) := by
  refine ⟨?_, ?_, rfl, rfl⟩
  · intro fs env bytes off hb hoff hseek hex
    simp [ImageRootFs.extract_and_decompress_vmlinuz, hb, hoff, hseek,
      createNew, hex]
  · intro fs file_present truncate_result size hex
    unfold ImageRootFs.allocate_file
    simp [createNew, hex]

theorem allocate_mem_pipeline (s : Int) (h : Stage.allocate s ∈ pipelineStages) :
    s = 268435456 := by
  have hs : s = ALLOC_SIZE := by
    simp only [pipelineStages, List.mem_cons, List.not_mem_nil, or_false] at h
    rcases h with h | h | h | h | h | h | h | h | h | h <;> simp_all
  rw [hs]
  norm_num [ALLOC_SIZE]

/-- C7: `build_image_from_base` allocates exactly 256 MiB (268435456
bytes), executes the stages strictly in source order (the trace is always
a prefix of the pipeline), skips every remaining stage after a failure and
returns that stage's single error with no artifact, and returns an `Image`
— rootfs path, the initramfs path from `extract_initramfs`, the kernel
path from `extract_and_decompress_vmlinuz` — exactly when every stage
including `unmount` succeeded. -/
theorem C7_build_pipeline (env : StageResults) (rootfs_file : RustPath) :
    ALLOC_SIZE = 268435456
    ∧ (∃ n, (build_image_from_base env rootfs_file).1 = pipelineStages.take n)
    ∧ (∀ s, Stage.allocate s ∈ (build_image_from_base env rootfs_file).1 →
        s = 268435456)
    ∧ ((∃ img, (build_image_from_base env rootfs_file).2 = .ok img) ↔ allStagesOk env)
    ∧ (∀ img, (build_image_from_base env rootfs_file).2 = .ok img →
        (build_image_from_base env rootfs_file).1 = pipelineStages
          ∧ img.rootfs_path = rootfs_file
          ∧ env.extract_initramfs = .ok img.initrd_path
          ∧ env.extract_and_decompress_vmlinuz = .ok img.kernel_path
          ∧ env.unmount = .ok ())
    ∧ (∀ e, (build_image_from_base env rootfs_file).2 = .error e →
        (env.setup_dirs = .error e ∨ env.allocate_file ALLOC_SIZE = .error e
          ∨ env.format = .error e ∨ env.mount = .error e
          ∨ env.copy_from_base_fs = .error e ∨ env.execute_setup = .error e
          ∨ env.extract_initramfs = .error e
          ∨ env.extract_and_decompress_vmlinuz = .error e
          ∨ env.unmount = .error e)) := by
  obtain ⟨s, a, f, m, c, x, i, k, u⟩ := env
  have hmem : ∀ (t : List Stage) (n : Nat), t = pipelineStages.take n →
      ∀ sz, Stage.allocate sz ∈ t → sz = 268435456 := by
    intro t n ht sz hsz
    rw [ht] at hsz
    exact allocate_mem_pipeline sz (List.mem_of_mem_take hsz)
  cases s with
  | error e =>
    have hb : build_image_from_base ⟨.error e, a, f, m, c, x, i, k, u⟩ rootfs_file =
        (pipelineStages.take 1, .error e) := by
      simp [build_image_from_base]
    rw [hb]
    refine ⟨by norm_num [ALLOC_SIZE], ⟨1, rfl⟩, hmem _ 1 rfl, by simp [allStagesOk],
      by simp, ?_⟩
    intro e' h
    obtain rfl := Except.error.inj h
    simp
  | ok vs =>
  cases ha : a ALLOC_SIZE with
  | error e =>
    have hb : build_image_from_base ⟨.ok vs, a, f, m, c, x, i, k, u⟩ rootfs_file =
        (pipelineStages.take 2, .error e) := by
      simp [build_image_from_base, ha]
    rw [hb]
    refine ⟨by norm_num [ALLOC_SIZE], ⟨2, rfl⟩, hmem _ 2 rfl,
      by simp [allStagesOk, ha], by simp, ?_⟩
    intro e' h
    obtain rfl := Except.error.inj h
    simp [ha]
  | ok va =>
  cases f with
  | error e =>
    have hb : build_image_from_base ⟨.ok vs, a, .error e, m, c, x, i, k, u⟩ rootfs_file =
        (pipelineStages.take 3, .error e) := by
      simp [build_image_from_base, ha]
    rw [hb]
    refine ⟨by norm_num [ALLOC_SIZE], ⟨3, rfl⟩, hmem _ 3 rfl,
      by simp [allStagesOk], by simp, ?_⟩
    intro e' h
    obtain rfl := Except.error.inj h
    simp
  | ok vf =>
  cases m with
  | error e =>
    have hb : build_image_from_base ⟨.ok vs, a, .ok vf, .error e, c, x, i, k, u⟩
        rootfs_file = (pipelineStages.take 4, .error e) := by
      simp [build_image_from_base, ha]
    rw [hb]
    refine ⟨by norm_num [ALLOC_SIZE], ⟨4, rfl⟩, hmem _ 4 rfl,
      by simp [allStagesOk], by simp, ?_⟩
    intro e' h
    obtain rfl := Except.error.inj h
    simp
  | ok vm =>
  cases c with
  | error e =>
    have hb : build_image_from_base ⟨.ok vs, a, .ok vf, .ok vm, .error e, x, i, k, u⟩
        rootfs_file = (pipelineStages.take 5, .error e) := by
      simp [build_image_from_base, ha]
    rw [hb]
    refine ⟨by norm_num [ALLOC_SIZE], ⟨5, rfl⟩, hmem _ 5 rfl,
      by simp [allStagesOk], by simp, ?_⟩
    intro e' h
    obtain rfl := Except.error.inj h
    simp
  | ok vc =>
  cases x with
  | error e =>
    have hb : build_image_from_base ⟨.ok vs, a, .ok vf, .ok vm, .ok vc, .error e, i, k, u⟩
        rootfs_file = (pipelineStages.take 6, .error e) := by
      simp [build_image_from_base, ha]
    rw [hb]
    refine ⟨by norm_num [ALLOC_SIZE], ⟨6, rfl⟩, hmem _ 6 rfl,
      by simp [allStagesOk], by simp, ?_⟩
    intro e' h
    obtain rfl := Except.error.inj h
    simp
  | ok vx =>
  cases i with
  | error e =>
    have hb : build_image_from_base
        ⟨.ok vs, a, .ok vf, .ok vm, .ok vc, .ok vx, .error e, k, u⟩
        rootfs_file = (pipelineStages.take 7, .error e) := by
      simp [build_image_from_base, ha]
    rw [hb]
    refine ⟨by norm_num [ALLOC_SIZE], ⟨7, rfl⟩, hmem _ 7 rfl,
      by simp [allStagesOk], by simp, ?_⟩
    intro e' h
    obtain rfl := Except.error.inj h
    simp
  | ok ip =>
  cases k with
  | error e =>
    have hb : build_image_from_base
        ⟨.ok vs, a, .ok vf, .ok vm, .ok vc, .ok vx, .ok ip, .error e, u⟩
        rootfs_file = (pipelineStages.take 8, .error e) := by
      simp [build_image_from_base, ha]
    rw [hb]
    refine ⟨by norm_num [ALLOC_SIZE], ⟨8, rfl⟩, hmem _ 8 rfl,
      by simp [allStagesOk], by simp, ?_⟩
    intro e' h
    obtain rfl := Except.error.inj h
    simp
  | ok kp =>
  cases u with
  | error e =>
    have hb : build_image_from_base
        ⟨.ok vs, a, .ok vf, .ok vm, .ok vc, .ok vx, .ok ip, .ok kp, .error e⟩
        rootfs_file = (pipelineStages, .error e) := by
      simp [build_image_from_base, ha]
    rw [hb]
    refine ⟨by norm_num [ALLOC_SIZE], ⟨10, by simp [pipelineStages]⟩, ?_,
      by simp [allStagesOk], by simp, ?_⟩
    · intro sz hsz
      exact allocate_mem_pipeline sz hsz
    · intro e' h
      obtain rfl := Except.error.inj h
      simp
  | ok vu =>
    have hb : build_image_from_base
        ⟨.ok vs, a, .ok vf, .ok vm, .ok vc, .ok vx, .ok ip, .ok kp, .ok vu⟩
        rootfs_file =
        (pipelineStages,
          .ok { rootfs_path := rootfs_file, initrd_path := ip, kernel_path := kp }) := by
      simp [build_image_from_base, ha]
    rw [hb]
    refine ⟨by norm_num [ALLOC_SIZE], ⟨10, by simp [pipelineStages]⟩, ?_, ?_, ?_, by simp⟩
    · intro sz hsz
      exact allocate_mem_pipeline sz hsz
    · constructor
      · intro _
        exact ⟨rfl, ha, rfl, rfl, rfl, rfl, ⟨ip, rfl⟩, ⟨kp, rfl⟩, rfl⟩
      · intro _
        exact ⟨_, rfl⟩
    · intro img h
      obtain rfl := (Except.ok.inj h).symm
      exact ⟨rfl, rfl, rfl, rfl, rfl⟩

/-- C10 witness: extracting into a working directory whose
`vmlinux-virt` output already exists fails with `AlreadyExists`, at a
concrete resource and environment. -/
theorem C10_create_new_semantics_witness :
    sampleMounted.extract_and_decompress_vmlinuz
      { vmlinuz_bytes := .ok GZIP_MAGIC_NUM, file_exists := fun _ => true,
        seek := .ok (), io_copy := .ok () } = .error (.Io .alreadyExists) :=
  C10_create_new_semantics.1 sampleMounted
    { vmlinuz_bytes := .ok GZIP_MAGIC_NUM, file_exists := fun _ => true,
      seek := .ok (), io_copy := .ok () } GZIP_MAGIC_NUM 0 rfl (by decide) rfl rfl

end FcMan
